import Mathlib

/-!
Verification of the session-coordination core of the ani2nerdle game server
(`src/main.rs`).  The registry (`Lobby`) is an in-memory map from a game id
to a pair `(host, optional guest)`; the coordinator (`on_connect` and its
event handlers) binds per-connection attributes and drives the registry.
The Rust `HashMap<String, (String, Option<String>)>` is embedded as a
function `String → Option (String × Option String)`; each handler is a pure
function from the connection state and registry to the new state together
with the observable outputs (acks, room joins, broadcasts).
-/

/-- The lobby registry: the Rust `HashMap<String, (String, Option<String>)>`
keyed by game id; a record is the host together with an optional guest. -/
def Registry : Type := String → Option (String × Option String)

/-- Result of `Lobby::insert` (Rust enum `LobbyResult`). -/
inductive LobbyResult where
  | New : LobbyResult
  | Paired : String → LobbyResult
  | Full : LobbyResult
deriving DecidableEq, Repr

namespace Lobby

/-- Embedding of `Lobby::insert` (src/main.rs lines 54–70): if a record for
`game_id` exists with the guest slot occupied, return `Full` and leave the
map untouched; if it exists with a free guest slot, fill it and return
`Paired(host)`; otherwise create `{host := player_id, guest := none}` and
return `New`. -/
def insert (l : Registry) (game_id player_id : String) : LobbyResult × Registry :=
  match l game_id with
  | some (_, some _) => (LobbyResult.Full, l)
  | some (p1, none) =>
      (LobbyResult.Paired p1,
        fun k => if k = game_id then some (p1, some player_id) else l k)
  | none =>
      (LobbyResult.New,
        fun k => if k = game_id then some (player_id, none) else l k)

/-- Embedding of `Lobby::remove` (src/main.rs lines 72–96): no record means
no-op; if `player_id` is the host the whole record is removed; else if it is
the guest the guest slot is cleared; otherwise no-op. -/
def remove (l : Registry) (game_id player_id : String) : Registry :=
  match l game_id with
  | none => l
  | some (p1, p2) =>
      if p1 = player_id then
        fun k => if k = game_id then none else l k
      else if p2 = some player_id then
        fun k => if k = game_id then some (p1, none) else l k
      else l

end Lobby

/-- Claim C1: on a fresh session id, the first admit creates
`{host := m1, guest := none}` and returns `New`; a second admit by a
distinct member fills the guest slot and returns `Paired m1`; any third
admit on the same session returns `Full` and leaves the registry
unchanged. -/
theorem insert_fresh_paired_full (l : Registry) (g m1 m2 : String)
    (hfresh : l g = none) (hne : m1 ≠ m2) :
    (Lobby.insert l g m1).1 = LobbyResult.New ∧
    (Lobby.insert l g m1).2 g = some (m1, none) ∧
    (Lobby.insert (Lobby.insert l g m1).2 g m2).1 = LobbyResult.Paired m1 ∧
    (Lobby.insert (Lobby.insert l g m1).2 g m2).2 g = some (m1, some m2) ∧
    (∀ m3 : String,
      Lobby.insert (Lobby.insert (Lobby.insert l g m1).2 g m2).2 g m3 =
        (LobbyResult.Full, (Lobby.insert (Lobby.insert l g m1).2 g m2).2)) := by
  unfold Lobby.insert
  simp [hfresh]

/-- Witness for C1 at session "g", members "p1", "p2", "p3". -/
theorem insert_fresh_paired_full_witness :
    (fun _ : String => (none : Option (String × Option String))) "g" = none ∧
    ("p1" : String) ≠ "p2" ∧
    (Lobby.insert (fun _ => none) "g" "p1").1 = LobbyResult.New := by
  refine ⟨rfl, by decide, ?_⟩
  exact (insert_fresh_paired_full (fun _ => none) "g" "p1" "p2" rfl (by decide)).1

/-- Claim C2: `Lobby::remove` with the host's identity removes the whole
record; with the guest's identity (distinct from the host) it clears the
guest slot leaving the host; with an identity that is neither host nor
guest, or on a session with no record, it returns the registry unchanged. -/
theorem remove_cases (l : Registry) (g : String) :
    (∀ p q, l g = some (p, q) →
      Lobby.remove l g p = fun k => if k = g then none else l k) ∧
    (∀ p q, l g = some (p, some q) → p ≠ q →
      Lobby.remove l g q = fun k => if k = g then some (p, none) else l k) ∧
    (∀ p q m, l g = some (p, q) → m ≠ p → q ≠ some m → Lobby.remove l g m = l) ∧
    (∀ m, l g = none → Lobby.remove l g m = l) := by
  refine ⟨?_, ?_, ?_, ?_⟩
  · intro p q h
    unfold Lobby.remove
    simp [h]
  · intro p q h hne
    unfold Lobby.remove
    simp [h, hne]
  · intro p q m h hm hq
    unfold Lobby.remove
    simp [h, Ne.symm hm, Ne.symm hq, hq]
  · intro m h
    unfold Lobby.remove
    simp [h]

/-- Witness for C2 on the concrete registry holding session "g" with host
"p1" and guest "p2": host eviction empties the record, guest eviction keeps
the host, stranger eviction and eviction on a missing session change
nothing. -/
theorem remove_cases_witness :
    (fun k : String => if k = "g" then some (("p1", some "p2")) else none) "g"
        = some ("p1", some "p2") ∧
    Lobby.remove (fun k => if k = "g" then some (("p1", some "p2")) else none) "g" "p3"
        = (fun k => if k = "g" then some (("p1", some "p2")) else none) := by
  constructor
  · rfl
  · exact (remove_cases (fun k => if k = "g" then some (("p1", some "p2")) else none)
      "g").2.2.1 "p1" (some "p2") "p3" rfl (by decide) (by decide)

/-- Claim C7: after the host of a session evicts, the record is gone and a
subsequent admit on the same session id returns `New`; after the guest
evicts, the record survives with the guest slot cleared and a subsequent
admit by any member returns `Paired host`. -/
theorem evict_roundtrip (l : Registry) (g h : String) :
    (∀ q, l g = some (h, q) →
      (Lobby.remove l g h) g = none ∧
      ∀ m, (Lobby.insert (Lobby.remove l g h) g m).1 = LobbyResult.New ∧
        (Lobby.insert (Lobby.remove l g h) g m).2 g = some (m, none)) ∧
    (∀ q, l g = some (h, some q) → h ≠ q →
      (Lobby.remove l g q) g = some (h, none) ∧
      ∀ m, (Lobby.insert (Lobby.remove l g q) g m).1 = LobbyResult.Paired h ∧
        (Lobby.insert (Lobby.remove l g q) g m).2 g = some (h, some m)) := by
  constructor
  · intro q hrec
    have hrem : Lobby.remove l g h = fun k => if k = g then none else l k :=
      (remove_cases l g).1 h q hrec
    refine ⟨by simp [hrem], ?_⟩
    intro m
    rw [hrem]
    unfold Lobby.insert
    simp
  · intro q hrec hne
    have hrem : Lobby.remove l g q = fun k => if k = g then some (h, none) else l k :=
      (remove_cases l g).2.1 h q hrec hne
    refine ⟨by simp [hrem], ?_⟩
    intro m
    rw [hrem]
    unfold Lobby.insert
    simp

/-- Witness for C7 on the registry holding session "g" with host "p1" and
guest "p2": host eviction then admit gives `New`, guest eviction then admit
gives `Paired "p1"`. -/
theorem evict_roundtrip_witness :
    (fun k : String => if k = "g" then some (("p1", some "p2")) else none) "g"
        = some ("p1", some "p2") ∧
    (Lobby.insert
        (Lobby.remove (fun k => if k = "g" then some (("p1", some "p2")) else none) "g" "p1")
        "g" "p3").1 = LobbyResult.New ∧
    (Lobby.insert
        (Lobby.remove (fun k => if k = "g" then some (("p1", some "p2")) else none) "g" "p2")
        "g" "p3").1 = LobbyResult.Paired "p1" := by
  refine ⟨rfl, ?_, ?_⟩
  · exact (((evict_roundtrip
      (fun k => if k = "g" then some (("p1", some "p2")) else none) "g" "p1").1
      (some "p2") rfl).2 "p3").1
  · exact (((evict_roundtrip
      (fun k => if k = "g" then some (("p1", some "p2")) else none) "g" "p1").2
      "p2" rfl (by decide)).2 "p3").1

/-- Claim C10: per-key frame property — `Lobby::insert` and `Lobby::remove`
on session id `g` leave the record of every other session id `k`
untouched. -/
theorem lobby_frame (l : Registry) (g k p : String) (hne : g ≠ k) :
    (Lobby.insert l g p).2 k = l k ∧ Lobby.remove l g p k = l k := by
  constructor
  · unfold Lobby.insert
    cases hrec : l g with
    | none => simp [Ne.symm hne]
    | some r =>
        cases r with
        | mk p1 p2 => cases p2 <;> simp [Ne.symm hne]
  · unfold Lobby.remove
    cases hrec : l g with
    | none => rfl
    | some r =>
        cases r with
        | mk p1 p2 =>
            by_cases h1 : p1 = p
            · simp [h1, Ne.symm hne]
            · by_cases h2 : p2 = some p
              · simp [h1, h2, Ne.symm hne]
              · simp [h1, h2]

/-- Witness for C10 at sessions "g" and "k". -/
theorem lobby_frame_witness :
    ("g" : String) ≠ "k" ∧
    (Lobby.insert (fun _ => none) "g" "p").2 "k" = (fun _ => none : Registry) "k" := by
  exact ⟨by decide, (lobby_frame (fun _ => none) "g" "k" "p" (by decide)).1⟩

/-- Per-connection state: the socket's extension attributes `PlayerId` and
`GameId` (src/main.rs lines 20–26, 157–158), both absent until a join binds
them. -/
structure Conn where
  playerId : Option String
  gameId : Option String
deriving DecidableEq, Repr

/-- Ack values the `join_game` handler can send (src/main.rs lines 163–175). -/
inductive Ack where
  | okNew : Ack
  | okPaired : String → Ack
  | roomFull : Ack
deriving DecidableEq, Repr

/-- Observable outcome of one `join_game` call: the updated connection
state and registry, the ack sent back (if any), the room the socket joined
(if any), and the `player joined` broadcast (room, player) emitted to the
room excluding the sender (if any). -/
structure JoinEffect where
  conn : Conn
  lobby : Registry
  ack : Option Ack
  roomJoined : Option String
  broadcast : Option (String × String)

/-- Embedding of the `join_game` handler (src/main.rs lines 150–182): if the
connection already carries a `PlayerId` extension, return immediately
(idempotency guard); otherwise bind both extensions, call `Lobby::insert`,
ack according to the outcome, and — except in the `Full` case, which
returns right after its ack — join the room and broadcast `player joined`. -/
def joinGame (c : Conn) (l : Registry) (game_id player_id : String) : JoinEffect :=
  if c.playerId.isSome then
    { conn := c, lobby := l, ack := none, roomJoined := none, broadcast := none }
  else
    let c2 : Conn := { playerId := some player_id, gameId := some game_id }
    match Lobby.insert l game_id player_id with
    | (LobbyResult.New, l2) =>
        { conn := c2, lobby := l2, ack := some Ack.okNew,
          roomJoined := some game_id, broadcast := some (game_id, player_id) }
    | (LobbyResult.Paired host, l2) =>
        { conn := c2, lobby := l2, ack := some (Ack.okPaired host),
          roomJoined := some game_id, broadcast := some (game_id, player_id) }
    | (LobbyResult.Full, l2) =>
        { conn := c2, lobby := l2, ack := some Ack.roomFull,
          roomJoined := none, broadcast := none }

/-- Claim C5: join is idempotent per connection — on a connection that
already carries a binding, `join_game` with any payload changes nothing and
emits nothing; after any `join_game` call the connection carries a binding,
so a second call is always such a no-op (first binding wins). -/
theorem join_idempotent (c : Conn) (l : Registry) (g p g2 p2 : String) :
    (c.playerId.isSome →
      joinGame c l g p = ⟨c, l, none, none, none⟩) ∧
    (joinGame c l g p).conn.playerId.isSome ∧
    joinGame (joinGame c l g p).conn (joinGame c l g p).lobby g2 p2 =
      ⟨(joinGame c l g p).conn, (joinGame c l g p).lobby, none, none, none⟩ := by
  have hguard : ∀ (c3 : Conn) (l3 : Registry) (g3 p3 : String),
      c3.playerId.isSome → joinGame c3 l3 g3 p3 = ⟨c3, l3, none, none, none⟩ := by
    intro c3 l3 g3 p3 h
    unfold joinGame
    simp [h]
  have hbound : (joinGame c l g p).conn.playerId.isSome := by
    unfold joinGame
    by_cases h : c.playerId.isSome
    · simp [h]
    · simp only [h, if_false]
      rcases hres : Lobby.insert l g p with ⟨r, l2⟩
      cases r <;> simp
  exact ⟨hguard c l g p, hbound,
    hguard (joinGame c l g p).conn (joinGame c l g p).lobby g2 p2 hbound⟩

/-- Witness for C5: on a connection already bound to player "p1" and game
"g", a further `join_game` is a no-op. -/
theorem join_idempotent_witness :
    (Conn.mk (some "p1") (some "g")).playerId.isSome ∧
    joinGame (Conn.mk (some "p1") (some "g")) (fun _ => none) "h" "p2" =
      ⟨Conn.mk (some "p1") (some "g"), (fun _ => none), none, none, none⟩ := by
  exact ⟨rfl, (join_idempotent (Conn.mk (some "p1") (some "g"))
    (fun _ => none) "h" "p2" "x" "y").1 rfl⟩

/-- Counterexample to claim C3 as stated: on a full session the handler DOES
bind the connection's attributes (they are inserted before the registry
call, src/main.rs lines 157–158, and the `Full` branch's early return does
not undo them), so a later `join_game` on that connection with a different
session id is swallowed by the idempotency guard instead of succeeding. -/
theorem join_full_counterexample :
    (joinGame (Conn.mk none none)
        (fun k => if k = "g" then some (("p1", some "p2")) else none)
        "g" "p3").ack = some Ack.roomFull ∧
    (joinGame (Conn.mk none none)
        (fun k => if k = "g" then some (("p1", some "p2")) else none)
        "g" "p3").conn.playerId = some "p3" ∧
    (joinGame (Conn.mk none none)
        (fun k => if k = "g" then some (("p1", some "p2")) else none)
        "g" "p3").conn.gameId = some "g" ∧
    (joinGame
        (joinGame (Conn.mk none none)
          (fun k => if k = "g" then some (("p1", some "p2")) else none)
          "g" "p3").conn
        (joinGame (Conn.mk none none)
          (fun k => if k = "g" then some (("p1", some "p2")) else none)
          "g" "p3").lobby
        "h" "p3").ack = none := by
  refine ⟨rfl, rfl, rfl, rfl⟩

/-- Claim C3 amended: a `join_game` rejected because the session is full
acks `room is full`, joins no room, broadcasts nothing and leaves the
registry unchanged; however the handler has already bound the connection's
member/session attributes, so every later `join_game` on that connection —
with any session id — is ignored by the idempotency guard rather than being
able to succeed. -/
theorem join_full_effects (c : Conn) (l : Registry) (g p h q : String)
    (hunbound : c.playerId = none) (hfull : l g = some (h, some q)) :
    (joinGame c l g p).ack = some Ack.roomFull ∧
    (joinGame c l g p).roomJoined = none ∧
    (joinGame c l g p).broadcast = none ∧
    (joinGame c l g p).lobby = l ∧
    (joinGame c l g p).conn.playerId = some p ∧
    (joinGame c l g p).conn.gameId = some g ∧
    ∀ g2 p2, joinGame (joinGame c l g p).conn (joinGame c l g p).lobby g2 p2 =
      ⟨(joinGame c l g p).conn, (joinGame c l g p).lobby, none, none, none⟩ := by
  have hins : Lobby.insert l g p = (LobbyResult.Full, l) := by
    unfold Lobby.insert
    simp [hfull]
  have hjoin : joinGame c l g p =
      { conn := Conn.mk (some p) (some g), lobby := l, ack := some Ack.roomFull,
        roomJoined := none, broadcast := none } := by
    unfold joinGame
    simp [hunbound, hins]
  refine ⟨by rw [hjoin], by rw [hjoin], by rw [hjoin], by rw [hjoin],
    by rw [hjoin], by rw [hjoin], ?_⟩
  intro g2 p2
  exact (join_idempotent (joinGame c l g p).conn (joinGame c l g p).lobby
    g2 p2 "x" "y").1 (by rw [hjoin]; rfl)

/-- Witness for the amended C3 on a full session "g" {host "p1", guest
"p2"} and an unbound connection joining as "p3". -/
theorem join_full_effects_witness :
    (Conn.mk none none).playerId = (none : Option String) ∧
    (fun k : String => if k = "g" then some (("p1", some "p2")) else none) "g"
      = some ("p1", some "p2") ∧
    (joinGame (Conn.mk none none)
      (fun k => if k = "g" then some (("p1", some "p2")) else none)
      "g" "p3").roomJoined = none := by
  refine ⟨rfl, rfl, ?_⟩
  exact (join_full_effects (Conn.mk none none)
    (fun k => if k = "g" then some (("p1", some "p2")) else none)
    "g" "p3" "p1" "p2" rfl rfl).2.1

/-- The distinctness invariant of the spec's data model: in every existing
record the guest, when present, differs from the host.  (Host presence and
the two-member bound are enforced structurally by the record type
`String × Option String`.) -/
def HostGuestDistinct (l : Registry) : Prop :=
  ∀ g h q, l g = some (h, q) → q ≠ some h

/-- Counterexample to claim C4 as stated: `Lobby::insert` does not compare
the joining member against the host, so admitting the same member id twice
on the same session yields a record whose guest equals its host —
insertion does not preserve the distinctness invariant. -/
theorem insert_distinct_counterexample :
    ¬ (∀ (l : Registry) (g p : String),
        HostGuestDistinct l → HostGuestDistinct (Lobby.insert l g p).2) := by
  intro hall
  have h1 : HostGuestDistinct (Lobby.insert (fun _ => none) "g" "p").2 := by
    apply hall
    intro g h q hrec
    simp at hrec
  have h2 : HostGuestDistinct
      (Lobby.insert (Lobby.insert (fun _ => none) "g" "p").2 "g" "p").2 :=
    hall _ "g" "p" h1
  have hrec : (Lobby.insert (Lobby.insert (fun _ => none) "g" "p").2 "g" "p").2 "g"
      = some ("p", some "p") := rfl
  exact h2 "g" "p" (some "p") hrec rfl

/-- Claim C4 amended: every existing record structurally has a host and at
most one guest, hence at most two members; `Lobby::remove` preserves the
host/guest distinctness invariant unconditionally, and `Lobby::insert`
preserves it provided the admitted member id differs from the session's
current host. -/
theorem lobby_invariant_preserved :
    (∀ r : String × Option String, (r.1 :: r.2.toList).length ≤ 2) ∧
    (∀ (l : Registry) (g p : String), HostGuestDistinct l →
      (∀ h q, l g = some (h, q) → p ≠ h) →
      HostGuestDistinct (Lobby.insert l g p).2) ∧
    (∀ (l : Registry) (g p : String), HostGuestDistinct l →
      HostGuestDistinct (Lobby.remove l g p)) := by
  refine ⟨?_, ?_, ?_⟩
  · intro r
    rcases r with ⟨h, q⟩
    cases q <;> simp
  · intro l g p hinv hne
    unfold Lobby.insert
    cases hrec : l g with
    | none =>
        intro g2 h q hrec2
        by_cases hg : g2 = g
        · subst hg
          simp at hrec2
          rcases hrec2 with ⟨hp, hq⟩
          subst hq
          simp
        · simp [hg] at hrec2
          exact hinv g2 h q hrec2
    | some r =>
        rcases r with ⟨p1, p2⟩
        cases p2 with
        | none =>
            intro g2 h q hrec2
            by_cases hg : g2 = g
            · subst hg
              simp at hrec2
              rcases hrec2 with ⟨hp, hq⟩
              subst hp
              subst hq
              have hne1 : p ≠ p1 := hne p1 none hrec
              simp [hne1]
            · simp [hg] at hrec2
              exact hinv g2 h q hrec2
        | some p2 =>
            exact hinv
  · intro l g p hinv
    unfold Lobby.remove
    cases hrec : l g with
    | none => exact hinv
    | some r =>
        rcases r with ⟨p1, p2⟩
        by_cases h1 : p1 = p
        · simp only [h1, if_pos]
          intro g2 h q hrec2
          by_cases hg : g2 = g
          · subst hg
            simp at hrec2
          · simp [hg] at hrec2
            exact hinv g2 h q hrec2
        · by_cases h2 : p2 = some p
          · simp only [if_neg h1, h2, if_pos]
            intro g2 h q hrec2
            by_cases hg : g2 = g
            · subst hg
              simp at hrec2
              rcases hrec2 with ⟨hp, hq⟩
              subst hq
              simp
            · simp [hg] at hrec2
              exact hinv g2 h q hrec2
          · simp only [if_neg h1, if_neg h2]
            exact hinv

/-- Witness for the amended C4: inserting "p1" into the empty registry
preserves the distinctness invariant. -/
theorem lobby_invariant_preserved_witness :
    HostGuestDistinct (Lobby.insert (fun _ => none) "g" "p1").2 := by
  apply lobby_invariant_preserved.2.1
  · intro g h q hrec
    simp at hrec
  · intro h q hrec
    simp at hrec

/-- Result of the content-provider fetch in `start_game` (src/main.rs lines
112–120): the HTTP request can fail (network error), the JSON decode into
`MALResponse` can fail (malformed), or a list of candidate item ids is
returned. -/
inductive FetchResult where
  | networkError : FetchResult
  | malformed : FetchResult
  | ok : List Nat → FetchResult
deriving DecidableEq, Repr

/-- Embedding of `SliceRandom::choose` with the random draw `k` made
explicit: `none` on an empty list, otherwise the element at index
`k mod length`. -/
def chooseRandom (cands : List Nat) (k : Nat) : Option Nat :=
  cands.get? (k % cands.length)

/-- Embedding of `start_game` (src/main.rs lines 106–136): stop silently if
the connection carries no `GameId`, if the fetch fails, if the response is
malformed, or if `choose` finds no candidate; otherwise broadcast the chosen
item id with the current timestamp to the session room.  The result is the
broadcast performed: `(room, item id, timestamp)` or `none`. -/
def startGame (c : Conn) (fetch : FetchResult) (k ts : Nat) :
    Option (String × Nat × Nat) :=
  match c.gameId with
  | none => none
  | some g =>
      match fetch with
      | FetchResult.networkError => none
      | FetchResult.malformed => none
      | FetchResult.ok cands =>
          match chooseRandom cands k with
          | none => none
          | some id => some (g, id, ts)

/-- Claim C6: `start_game` broadcasts nothing (and surfaces no error — its
result type has no error case) on a network error, a malformed response, or
an empty candidate list; a broadcast `(room, chosen id, timestamp)` happens
exactly when the connection is bound and the fetch succeeds with at least
one candidate, and the chosen id is one of the candidates. -/
theorem start_round_broadcast (c : Conn) (fetch : FetchResult) (k ts : Nat) :
    (fetch = FetchResult.networkError ∨ fetch = FetchResult.malformed ∨
        fetch = FetchResult.ok [] → startGame c fetch k ts = none) ∧
    (∀ b, startGame c fetch k ts = some b →
      c.gameId = some b.1 ∧ b.2.2 = ts ∧
      ∃ cands, fetch = FetchResult.ok cands ∧ cands ≠ [] ∧ b.2.1 ∈ cands) ∧
    (∀ g cands, c.gameId = some g → fetch = FetchResult.ok cands → cands ≠ [] →
      ∃ id, id ∈ cands ∧ startGame c fetch k ts = some (g, id, ts)) := by
  refine ⟨?_, ?_, ?_⟩
  · intro hbad
    unfold startGame
    cases hgid : c.gameId with
    | none => rfl
    | some g =>
        rcases hbad with h | h | h <;> subst h <;> rfl
  · intro b hb
    cases hgid : c.gameId with
    | none => simp [startGame, hgid] at hb
    | some g =>
        cases fetch with
        | networkError => simp [startGame, hgid] at hb
        | malformed => simp [startGame, hgid] at hb
        | ok cands =>
            cases hch : chooseRandom cands k with
            | none => simp [startGame, hgid, hch] at hb
            | some id =>
                simp [startGame, hgid, hch] at hb
                have hb2 : b = (g, id, ts) := hb.symm
                subst hb2
                have hmem : id ∈ cands := List.get?_mem hch
                have hne : cands ≠ [] := by
                  intro hnil
                  subst hnil
                  simp [chooseRandom] at hch
                exact ⟨rfl, rfl, cands, rfl, hne, hmem⟩
  · intro g cands hgid hfetch hne
    subst hfetch
    have hlen : 0 < cands.length := List.length_pos.mpr hne
    have hlt : k % cands.length < cands.length := Nat.mod_lt _ hlen
    have hch : chooseRandom cands k = some (cands.get ⟨k % cands.length, hlt⟩) :=
      List.get?_eq_get hlt
    refine ⟨cands.get ⟨k % cands.length, hlt⟩, List.get_mem cands _ hlt, ?_⟩
    simp [startGame, hgid, hch]

/-- Witness for C6: with game id "g", a successful fetch of candidates
[7, 9], draw 3 and timestamp 100, the broadcast selects candidate 9. -/
theorem start_round_broadcast_witness :
    startGame (Conn.mk (some "p1") (some "g")) (FetchResult.ok [7, 9]) 3 100
      = some ("g", 9, 100) ∧
    startGame (Conn.mk (some "p1") (some "g")) FetchResult.networkError 3 100
      = none := by
  constructor
  · rfl
  · exact (start_round_broadcast (Conn.mk (some "p1") (some "g"))
      FetchResult.networkError 3 100).1 (Or.inl rfl)

/-- Embedding of `on_pass` (src/main.rs lines 138–144): with no bound
`GameId` nothing happens; otherwise a `pass` signal with the current
timestamp is broadcast to the session room. -/
def onPass (c : Conn) (ts : Nat) : Option (String × Nat) :=
  match c.gameId with
  | none => none
  | some g => some (g, ts)

/-- Embedding of the `extend` handler (src/main.rs lines 186–192): with no
bound `GameId` nothing happens; otherwise an `extend` signal (no payload) is
broadcast and the result names the room. -/
def onExtend (c : Conn) : Option String :=
  match c.gameId with
  | none => none
  | some g => some g

/-- Embedding of the `send anime` handler (src/main.rs lines 194–200): with
no bound `GameId` nothing happens; otherwise `(item id, timestamp)` is
broadcast to the session room as `next anime`. -/
def onSendAnime (c : Conn) (v : Int) (ts : Nat) : Option (String × Int × Nat) :=
  match c.gameId with
  | none => none
  | some g => some (g, v, ts)

/-- Embedding of the disconnect handler (src/main.rs lines 208–221): if the
connection is missing its `GameId` or its `PlayerId` extension, log and
stop; otherwise call `Lobby::remove`.  The result is the registry after the
handler. -/
def onDisconnect (c : Conn) (l : Registry) : Registry :=
  match c.gameId with
  | none => l
  | some g =>
      match c.playerId with
      | none => l
      | some p => Lobby.remove l g p

/-- Claim C8: every session-scoped trigger (`start game`, `pass`, `extend`,
`send anime`) on a connection with no bound game id broadcasts nothing, and
a disconnect on a connection missing its game id or its player id leaves
the registry untouched. -/
theorem unbound_triggers_noop (c : Conn) (l : Registry) (v : Int)
    (fetch : FetchResult) (k ts : Nat) :
    (c.gameId = none →
      startGame c fetch k ts = none ∧ onPass c ts = none ∧
      onExtend c = none ∧ onSendAnime c v ts = none ∧ onDisconnect c l = l) ∧
    (c.playerId = none → onDisconnect c l = l) := by
  constructor
  · intro h
    refine ⟨?_, ?_, ?_, ?_, ?_⟩ <;>
      simp [startGame, onPass, onExtend, onSendAnime, onDisconnect, h]
  · intro h
    unfold onDisconnect
    cases hg : c.gameId with
    | none => rfl
    | some g => simp [h]

/-- Witness for C8 on a fully unbound connection. -/
theorem unbound_triggers_noop_witness :
    (Conn.mk none none).gameId = none ∧
    onPass (Conn.mk none none) 5 = none ∧
    onDisconnect (Conn.mk none none) (fun _ => none) = (fun _ => none) := by
  refine ⟨rfl, ?_, ?_⟩
  · exact ((unbound_triggers_noop (Conn.mk none none) (fun _ => none) 0
      FetchResult.networkError 0 5).1 rfl).2.1
  · exact (unbound_triggers_noop (Conn.mk none none) (fun _ => none) 0
      FetchResult.networkError 0 5).2 rfl

/-- The payload of `message-with-ack` as the handler observes it through
`rmpv::Value::as_str` (src/main.rs line 204): either a text value or a
value that is not representable as text. -/
inductive MsgValue where
  | str : String → MsgValue
  | nonText : MsgValue
deriving DecidableEq, Repr

/-- Embedding of `Value::as_str`: `some` exactly on text values. -/
def MsgValue.asStr : MsgValue → Option String
  | MsgValue.str s => some s
  | MsgValue.nonText => none

/-- Embedding of the `message-with-ack` handler (src/main.rs lines
202–206): ack `"replied: " ++ value` for a text value; for a non-text value
the `unwrap` on `as_str` fails, so no ack is produced — the failure is an
`Except.error` absorbed at the handler boundary, not a crash of the whole
model. -/
def onMessageWithAck (v : MsgValue) : Except Unit String :=
  match v.asStr with
  | some s => Except.ok ("replied: " ++ s)
  | none => Except.error ()

/-- Claim C9: the `message-with-ack` handler acks `"replied: "` followed by
the payload for every text payload; for a payload not representable as text
the ack fails (an error result, which the handler absorbs rather than
propagating further — the handler is a total function into `Except`). -/
theorem message_with_ack_reply (v : MsgValue) :
    (∀ s, v = MsgValue.str s →
      onMessageWithAck v = Except.ok ("replied: " ++ s)) ∧
    (v.asStr = none → onMessageWithAck v = Except.error ()) := by
  constructor
  · intro s hs
    subst hs
    rfl
  · intro h
    unfold onMessageWithAck
    rw [h]

/-- Witness for C9 at the text payload "hello" and a non-text payload. -/
theorem message_with_ack_reply_witness :
    onMessageWithAck (MsgValue.str "hello") = Except.ok "replied: hello" ∧
    onMessageWithAck MsgValue.nonText = Except.error () := by
  constructor
  · exact (message_with_ack_reply (MsgValue.str "hello")).1 "hello" rfl
  · exact (message_with_ack_reply MsgValue.nonText).2 rfl
